import Mathlib

/-!
# Verification of the `ghcontributions` reporting core

A shallow embedding of the Go package `reporting` (and the parts of `main.go`
that the claims touch): the `QueryResult` data model, `NewReporter` year
normalization, the `Collect` year-iteration loop, and `Aggregate`.

Go `int` values are modelled as `Int` (the contribution counts and years in
this program are far below 2^63, so two's-complement wrap-around is not
modelled).  The wall clock (`time.Now()`) is passed in as an explicit
parameter (`thisYear` for `NewReporter`, `now` for `Aggregate`).  The remote
GraphQL client is modelled as a function from the target year to the query
outcome for that year's window; `log.Fatal` is modelled as a distinguished
terminal outcome, since it exits the process.
-/

namespace Reporting

/-- The `Repository` sub-struct of each `...ByRepository` entry. -/
structure Repository where
  Name : String
  URL : String
  deriving Repr, DecidableEq

/-- One entry of a `...ContributionsByRepository` list. -/
structure RepoContribution where
  Repository : Repository
  TotalCount : Int
  deriving Repr, DecidableEq

/-- The `ContributionsCollection` sub-struct of `QueryResult.User`. -/
structure ContributionsCollection where
  HasAnyContributions : Bool
  HasActivityInThePast : Bool
  RestrictedContributionsCount : Int
  TotalCommitContributions : Int
  TotalIssueContributions : Int
  TotalPullRequestContributions : Int
  TotalPullRequestReviewContributions : Int
  TotalRepositoriesWithContributedIssues : Int
  TotalRepositoriesWithContributedCommits : Int
  TotalRepositoriesWithContributedPullRequests : Int
  TotalRepositoriesWithContributedPullRequestReviews : Int
  CommitContributionsByRepository : List RepoContribution
  IssueContributionsByRepository : List RepoContribution
  PullRequestContributionsByRepository : List RepoContribution
  PullRequestReviewContributionsByRepository : List RepoContribution
  deriving Repr, DecidableEq

/-- The anonymous `User` struct inside `QueryResult`. -/
structure QueryUser where
  Login : String
  ContributionsCollection : ContributionsCollection
  deriving Repr, DecidableEq

/-- A Github GraphQL query result (high level fields), `QueryResult` in the source. -/
structure QueryResult where
  User : QueryUser
  deriving Repr, DecidableEq

/-- `AggregatedResults` stores the aggregated results. -/
structure AggregatedResults where
  Timestamp : Int
  TotalCommitContributions : Int
  TotalRepositories : Int
  TotalOtherContributions : Int
  deriving Repr, DecidableEq

/-- Outcome of one `r.Client.Query` remote call: a filled-in result, or an error. -/
inductive QueryOutcome where
  | ok (res : QueryResult)
  | err (msg : String)
  deriving Repr, DecidableEq

/-- The remote GraphQL client (`*githubv4.Client` in the source), modelled as the
function from the target year to the outcome of the query for that year's
`[Jan 1, Dec 31]` window for the reporter's user. -/
structure GHClient where
  Query : Int → QueryOutcome

/-- `Reporter` collects statistics for one username over a year range.
`Client` is an `Option` because the Go field is a nil-able pointer. -/
structure Reporter where
  Client : Option GHClient
  User : String
  LastYear : Int
  FirstYear : Int

/-- The zero value `Reporter{}` of the Go struct: nil client, empty user, zero years. -/
def Reporter.zero : Reporter :=
  { Client := none, User := "", LastYear := 0, FirstYear := 0 }

/-- Modelled from the spec: the constant `DefaultFirstContributionYear` is declared
in a source file not provided; the spec ("a fixed floor value (year 2000)") and the
source comment ("defaults to 2000") fix it at 2000. -/
def DefaultFirstContributionYear : Int := 2000

/-- `NewReporter` constructs a new `Reporter`, validating the user and normalizing
the year range.  `thisYear` stands for `time.Now().UTC().Year()`.  The Go function
returns the pair `(reporter, err)`; the error is modelled as an `Option String`
carrying the `fmt.Errorf` message. -/
def NewReporter (client : Option GHClient) (user : String)
    (firstYear : Int) (lastYear : Int) (thisYear : Int) : Reporter × Option String :=
  if user = "" then
    (Reporter.zero, some ("user " ++ user ++ " cannot be blank in constructing a query"))
  else
    let firstYear1 :=
      if firstYear < DefaultFirstContributionYear ∨ firstYear > thisYear then
        DefaultFirstContributionYear
      else firstYear
    let lastYear1 := if lastYear > thisYear then thisYear else lastYear
    let lastYear2 := if lastYear1 = 0 ∨ lastYear1 < firstYear1 then thisYear else lastYear1
    ({ Client := client, User := user, LastYear := lastYear2, FirstYear := firstYear1 }, none)

/-- The result store `queryResults : map[string]QueryResult`, modelled as an
association list (keys unique by the insert discipline below). -/
abbrev Store := List (String × QueryResult)

/-- Go map assignment `m[k] = v`: overwrite the value if the key is present,
otherwise append a new entry. -/
def storeInsert (s : Store) (k : String) (v : QueryResult) : Store :=
  if s.any (fun kv => kv.1 == k) then
    s.map (fun kv => if kv.1 == k then (kv.1, v) else kv)
  else s ++ [(k, v)]

/-- The outcome of one `Collect` call.
`queried` is the (ghost) trace of target years passed to `Client.Query`, in call
order; `store` is the result store when the call ends; `fatal = some e` records
that the process was terminated by `log.Fatal(e)` (the `return err` after
`log.Fatal` in the source is dead code, so a query error never produces a normal
return, and the normal return's error value is always nil). -/
structure CollectOutcome where
  queried : List Int
  store : Store
  fatal : Option String
  deriving Repr, DecidableEq

/-- The body of the `for targetYear := r.LastYear; targetYear >= r.FirstYear;
targetYear--` loop of `Collect`, with the iteration count made explicit as the
fuel `n` (the caller passes `(LastYear - FirstYear + 1).toNat`, exactly the
number of years satisfying the loop condition). -/
def collectLoop (q : Int → QueryOutcome) (user : String) :
    Nat → Int → Store → CollectOutcome
  | 0, _, store => { queried := [], store := store, fatal := none }
  | n + 1, year, store =>
    match q year with
    | .err e => { queried := [year], store := store, fatal := some e }
    | .ok res =>
      let store1 :=
        if res.User.Login ≠ "" then
          storeInsert store (user ++ "-" ++ toString year) res
        else store
      if res.User.ContributionsCollection.HasActivityInThePast then
        let rest := collectLoop q user n (year - 1) store1
        { queried := year :: rest.queried, store := rest.store, fatal := rest.fatal }
      else
        { queried := [year], store := store1, fatal := none }

/-- `Collect` gathers contribution statistics year by year, newest first,
stopping early when `hasActivityInThePast` is false.  The store is threaded
explicitly (in the source it is the package-global `queryResults`).  A nil
client would be a nil-pointer panic in Go; it is modelled as a fatal outcome
and never arises from `NewReporter` with a real client. -/
def Reporter.Collect (r : Reporter) (store : Store) : CollectOutcome :=
  match r.Client with
  | none => { queried := [], store := store, fatal := some "nil client" }
  | some c => collectLoop c.Query r.User (r.LastYear - r.FirstYear + 1).toNat r.LastYear store

/-- Go map read-or-zero plus assignment `m[name] = m[name] + 1` on
`uniqueRepositories : map[string]int`, modelled on an association list. -/
def bumpRepo (m : List (String × Int)) (name : String) : List (String × Int) :=
  if m.any (fun kv => kv.1 == name) then
    m.map (fun kv => if kv.1 == name then (kv.1, kv.2 + 1) else kv)
  else m ++ [(name, 1)]

/-- The four `...ByRepository` lists of one snapshot, reduced in the order the
source's four `for` loops run. -/
def snapshotRepoNames (res : QueryResult) : List String :=
  res.User.ContributionsCollection.CommitContributionsByRepository.map (·.Repository.Name) ++
  res.User.ContributionsCollection.IssueContributionsByRepository.map (·.Repository.Name) ++
  res.User.ContributionsCollection.PullRequestContributionsByRepository.map (·.Repository.Name) ++
  res.User.ContributionsCollection.PullRequestReviewContributionsByRepository.map (·.Repository.Name)

/-- The body of `Aggregate`'s `for userYear, queryResult := range *queryResults`
loop: add this snapshot's commit count and other-contribution counts, and bump
the occurrence count of every repository name of its four category lists. -/
def aggregateStep (acc : AggregatedResults × List (String × Int)) (kv : String × QueryResult) :
    AggregatedResults × List (String × Int) :=
  let cc := kv.2.User.ContributionsCollection
  let agg := acc.1
  let agg1 :=
    { agg with
      TotalCommitContributions := agg.TotalCommitContributions + cc.TotalCommitContributions
      TotalOtherContributions := agg.TotalOtherContributions +
        (cc.TotalIssueContributions + cc.TotalPullRequestContributions +
          cc.TotalPullRequestReviewContributions) }
  (agg1, (snapshotRepoNames kv.2).foldl bumpRepo acc.2)

/-- `Aggregate` reduces the whole result store into `AggregatedResults`.
`now` stands for `time.Now().Unix()`.  The receiver `_r` is unused, exactly as
in the source.  A Go map's range order is unspecified; the embedding iterates
the association list in list order, and order-independence is proved as claim
C9 rather than assumed. -/
def Reporter.Aggregate (_r : Reporter) (queryResults : Store) (now : Int) : AggregatedResults :=
  let init : AggregatedResults :=
    { Timestamp := 0, TotalCommitContributions := 0
      TotalRepositories := 0, TotalOtherContributions := 0 }
  let acc := queryResults.foldl aggregateStep (init, [])
  { acc.1 with TotalRepositories := acc.2.length, Timestamp := now }

/-! ## Spec-side views of the store (used to state the aggregation claims) -/

/-- All repository names of a store, across all four per-category lists of all
snapshots, in iteration order. -/
def storeRepoNames (s : Store) : List String :=
  s.flatMap (fun kv => snapshotRepoNames kv.2)

/-- The commit count of one snapshot. -/
def commitsOf (res : QueryResult) : Int :=
  res.User.ContributionsCollection.TotalCommitContributions

/-- The issues + pull requests + reviews count of one snapshot. -/
def othersOf (res : QueryResult) : Int :=
  res.User.ContributionsCollection.TotalIssueContributions +
  res.User.ContributionsCollection.TotalPullRequestContributions +
  res.User.ContributionsCollection.TotalPullRequestReviewContributions

/-- Key-set evolution of `bumpRepo`: append the key when it is new, keep the
key list unchanged otherwise (proof-side abstraction of `bumpRepo`). -/
def insKey (ks : List String) (n : String) : List String :=
  if n ∈ ks then ks else ks ++ [n]

/-- The remote response for year `y` resolved a user and reported
`hasActivityInThePast = true` (so `Collect` keeps iterating past `y`). -/
def hasPastTrue (q : Int → QueryOutcome) (y : Int) : Prop :=
  ∃ res, q y = QueryOutcome.ok res ∧
    res.User.ContributionsCollection.HasActivityInThePast = true

/-! ## Concrete test fixtures (synthetic query responses and stores) -/

/-- A snapshot with the given login, `hasActivityInThePast` flag, counts and
per-category repository lists; the remaining fields are zero. -/
def mkSnapshot (login : String) (hasPast : Bool)
    (commits issues prs reviews : Int)
    (commitRepos issueRepos prRepos reviewRepos : List RepoContribution) : QueryResult :=
  { User :=
    { Login := login
      ContributionsCollection :=
      { HasAnyContributions := true
        HasActivityInThePast := hasPast
        RestrictedContributionsCount := 0
        TotalCommitContributions := commits
        TotalIssueContributions := issues
        TotalPullRequestContributions := prs
        TotalPullRequestReviewContributions := reviews
        TotalRepositoriesWithContributedIssues := 0
        TotalRepositoriesWithContributedCommits := 0
        TotalRepositoriesWithContributedPullRequests := 0
        TotalRepositoriesWithContributedPullRequestReviews := 0
        CommitContributionsByRepository := commitRepos
        IssueContributionsByRepository := issueRepos
        PullRequestContributionsByRepository := prRepos
        PullRequestReviewContributionsByRepository := reviewRepos } } }

/-- A repository-list entry with the given name. -/
def mkRepo (name url : String) (count : Int) : RepoContribution :=
  { Repository := { Name := name, URL := url }, TotalCount := count }

/-- Synthetic per-year responses for the C2 scenario: every year resolves the
user `"u"`, and `hasActivityInThePast` is false exactly for year 2022. -/
def query2022 : Int → QueryOutcome :=
  fun y => QueryOutcome.ok (mkSnapshot "u" (y != 2022) 0 0 0 0 [] [] [] [])

/-- User A's snapshot of the end-to-end scenario:
commits=10, issues=2, PRs=1, reviews=0, repos x,y. -/
def snapA : QueryResult :=
  mkSnapshot "A" true 10 2 1 0
    [mkRepo "x" "https://e.g/x" 6, mkRepo "y" "https://e.g/y" 4]
    [mkRepo "x" "https://e.g/x" 2] [mkRepo "y" "https://e.g/y" 1] []

/-- User B's snapshot of the end-to-end scenario:
commits=5, issues=0, PRs=3, reviews=2, repos y,z. -/
def snapB : QueryResult :=
  mkSnapshot "B" true 5 0 3 2
    [mkRepo "y" "https://e.g/y2" 5] []
    [mkRepo "z" "https://e.g/z" 3] [mkRepo "z" "https://e.g/z" 2]

/-- The end-to-end two-snapshot store (one snapshot per user). -/
def exampleStore : Store := [("A-2024", snapA), ("B-2024", snapB)]

/-- Two snapshots that both mention a repository named `repoA`, once as a commit
contribution and once as an issue contribution (the C5 de-duplication scenario). -/
def storeRepoA : Store :=
  [("c-2024", mkSnapshot "c" true 1 0 0 0 [mkRepo "repoA" "https://e.g/one/repoA" 1] [] [] []),
   ("d-2024", mkSnapshot "d" true 0 1 0 0 [] [mkRepo "repoA" "https://e.g/two/repoA" 1] [] [])]

/-- Rewrite the URL of one repository-list entry. -/
def setRepoURL (f : String → String) (rc : RepoContribution) : RepoContribution :=
  { rc with Repository := { rc.Repository with URL := f rc.Repository.URL } }

/-- Rewrite every repository URL of a snapshot, leaving names and counts alone. -/
def setSnapshotURLs (f : String → String) (res : QueryResult) : QueryResult :=
  { User :=
    { res.User with ContributionsCollection :=
      { res.User.ContributionsCollection with
        CommitContributionsByRepository :=
          res.User.ContributionsCollection.CommitContributionsByRepository.map (setRepoURL f)
        IssueContributionsByRepository :=
          res.User.ContributionsCollection.IssueContributionsByRepository.map (setRepoURL f)
        PullRequestContributionsByRepository :=
          res.User.ContributionsCollection.PullRequestContributionsByRepository.map (setRepoURL f)
        PullRequestReviewContributionsByRepository :=
          res.User.ContributionsCollection.PullRequestReviewContributionsByRepository.map
            (setRepoURL f) } } }

/-- Rewrite every repository URL of every snapshot of a store. -/
def setStoreURLs (f : String → String) (s : Store) : Store :=
  s.map (fun kv => (kv.1, setSnapshotURLs f kv.2))

/-! ## Helper lemmas about `NewReporter` -/

theorem newReporter_fst_eq (client : Option GHClient) (user : String)
    (f l ty : Int) (hu : user ≠ "") :
    (NewReporter client user f l ty).1.FirstYear =
      (if f < DefaultFirstContributionYear ∨ f > ty then DefaultFirstContributionYear else f) := by
  simp [NewReporter, hu]

theorem newReporter_lst_eq (client : Option GHClient) (user : String)
    (f l ty : Int) (hu : user ≠ "") :
    (NewReporter client user f l ty).1.LastYear =
      (if (if l > ty then ty else l) = 0 ∨
          (if l > ty then ty else l) <
            (if f < DefaultFirstContributionYear ∨ f > ty then DefaultFirstContributionYear else f)
        then ty else (if l > ty then ty else l)) := by
  simp [NewReporter, hu]

theorem newReporter_err_eq (client : Option GHClient) (user : String)
    (f l ty : Int) (hu : user ≠ "") :
    (NewReporter client user f l ty).2 = none := by
  simp [NewReporter, hu]

/-! ## Helper lemmas about `Collect` -/

theorem collectLoop_queried_length (q : Int → QueryOutcome) (user : String) :
    ∀ (n : Nat) (year : Int) (store : Store),
      (collectLoop q user n year store).queried.length ≤ n := by
  intro n
  induction n with
  | zero => intro year store; simp [collectLoop]
  | succ n ih =>
    intro year store
    cases hq : q year with
    | err e => simp [collectLoop, hq]
    | ok res =>
      cases hflag : res.User.ContributionsCollection.HasActivityInThePast with
      | false => simp [collectLoop, hq, hflag]
      | true =>
        simp only [collectLoop, hq, hflag, if_true, List.length_cons]
        exact Nat.succ_le_succ (ih _ _)

theorem collectLoop_queried_shape (q : Int → QueryOutcome) (user : String) :
    ∀ (n : Nat) (year : Int) (store : Store),
      (collectLoop q user n year store).queried =
        (List.range (collectLoop q user n year store).queried.length).map
          (fun i : Nat => year - (i : Int)) := by
  intro n
  induction n with
  | zero => intro year store; rfl
  | succ n ih =>
    intro year store
    cases hq : q year with
    | err e => simp [collectLoop, hq, List.range_succ]
    | ok res =>
      cases hflag : res.User.ContributionsCollection.HasActivityInThePast with
      | false => simp [collectLoop, hq, hflag, List.range_succ]
      | true =>
        simp only [collectLoop, hq, hflag, if_true]
        rw [List.length_cons, List.range_succ_eq_map, List.map_cons]
        refine List.cons_eq_cons.2 ⟨by simp, ?_⟩
        rw [List.map_map]
        conv_lhs => rw [ih]
        exact List.map_congr_left (fun i _ => by
          simp only [Function.comp_apply]
          push_cast
          ring)

theorem collectLoop_queried_bounds (q : Int → QueryOutcome) (user : String)
    (n : Nat) (year : Int) (store : Store) :
    ∀ y ∈ (collectLoop q user n year store).queried, year - n < y ∧ y ≤ year := by
  intro y hy
  rw [collectLoop_queried_shape q user n year store] at hy
  rcases List.mem_map.1 hy with ⟨i, hi, rfl⟩
  have h1 := List.mem_range.1 hi
  have h2 := collectLoop_queried_length q user n year store
  constructor <;> omega

theorem collectLoop_mem_queried (q : Int → QueryOutcome) (user : String) :
    ∀ (n : Nat) (year : Int) (store : Store),
      (∀ z, year - n < z → z ≤ year → ∃ res, q z = QueryOutcome.ok res) →
      ∀ y : Int,
        (y ∈ (collectLoop q user n year store).queried ↔
          (year - n < y ∧ y ≤ year ∧ ∀ z, y < z → z ≤ year → hasPastTrue q z)) := by
  intro n
  induction n with
  | zero =>
    intro year store _ y
    simp only [collectLoop, List.not_mem_nil, false_iff, Nat.cast_zero]
    rintro ⟨h1, h2, _⟩
    omega
  | succ n ih =>
    intro year store hok y
    have hyearok : ∃ res, q year = QueryOutcome.ok res := by
      refine hok year ?_ le_rfl
      have : ((n : Int) + 1) > 0 := by positivity
      push_cast
      omega
    cases hq : q year with
    | err e =>
      rcases hyearok with ⟨res, hres⟩
      rw [hq] at hres
      exact absurd hres (by simp)
    | ok res =>
      cases hflag : res.User.ContributionsCollection.HasActivityInThePast with
      | false =>
        simp only [collectLoop, hq, hflag, if_false, Bool.false_eq_true, List.mem_singleton]
        constructor
        · rintro rfl
          refine ⟨by push_cast; omega, le_rfl, ?_⟩
          intro z hz1 hz2
          exact absurd hz2 (by omega)
        · rintro ⟨h1, h2, hcond⟩
          by_contra hne
          have hlt : y < year := lt_of_le_of_ne h2 hne
          rcases hcond year hlt le_rfl with ⟨res2, hres2, hflag2⟩
          rw [hq] at hres2
          injection hres2 with he
          rw [← he] at hflag2
          rw [hflag] at hflag2
          exact Bool.false_ne_true hflag2
      | true =>
        have hok2 : ∀ z, (year - 1) - n < z → z ≤ year - 1 → ∃ r2, q z = QueryOutcome.ok r2 := by
          intro z hz1 hz2
          refine hok z ?_ (by omega)
          push_cast at hz1 ⊢
          omega
        have ihy := ih (year - 1) (if res.User.Login ≠ "" then
          storeInsert store (user ++ "-" ++ toString year) res else store) hok2 y
        simp only [collectLoop, hq, hflag, if_true, List.mem_cons]
        constructor
        · rintro (rfl | hmem)
          · refine ⟨by push_cast; omega, le_rfl, ?_⟩
            intro z hz1 hz2
            exact absurd hz2 (by omega)
          · rcases ihy.1 hmem with ⟨h1, h2, hcond⟩
            refine ⟨by push_cast at h1 ⊢; omega, by omega, ?_⟩
            intro z hz1 hz2
            rcases eq_or_lt_of_le hz2 with rfl | hzlt
            · exact ⟨res, hq, hflag⟩
            · exact hcond z hz1 (by omega)
        · rintro ⟨h1, h2, hcond⟩
          rcases eq_or_lt_of_le h2 with rfl | hylt
          · exact Or.inl rfl
          · refine Or.inr (ihy.2 ⟨by push_cast at h1 ⊢; omega, by omega, ?_⟩)
            intro z hz1 hz2
            exact hcond z hz1 (by omega)

theorem mem_storeInsert {s : Store} {k : String} {v : QueryResult} {e : String × QueryResult}
    (he : e ∈ storeInsert s k v) : e.2 = v ∨ e ∈ s := by
  unfold storeInsert at he
  split at he
  · rcases List.mem_map.1 he with ⟨kv, hkv, heq⟩
    by_cases hk : kv.1 == k
    · rw [if_pos hk] at heq
      left
      rw [← heq]
    · rw [if_neg hk] at heq
      right
      rw [← heq]
      exact hkv
  · rcases List.mem_append.1 he with h | h
    · right; exact h
    · left
      simp only [List.mem_singleton] at h
      rw [h]

theorem keys_storeInsert {s : Store} {k : String} {v : QueryResult} {e : String × QueryResult}
    (he : e ∈ storeInsert s k v) : e.1 ∈ s.map Prod.fst ∨ e.1 = k := by
  unfold storeInsert at he
  split at he
  · rcases List.mem_map.1 he with ⟨kv, hkv, heq⟩
    by_cases hk : kv.1 == k
    · right
      rw [← heq, if_pos hk]
      exact beq_iff_eq.1 hk
    · left
      rw [← heq, if_neg hk]
      exact List.mem_map_of_mem Prod.fst hkv
  · rcases List.mem_append.1 he with h | h
    · exact Or.inl (List.mem_map_of_mem Prod.fst h)
    · right
      simp only [List.mem_singleton] at h
      rw [h]

theorem collectLoop_store_inv (q : Int → QueryOutcome) (user : String) :
    ∀ (n : Nat) (year : Int) (store : Store),
      (∀ e ∈ store, e.2.User.Login ≠ "") →
      ∀ e ∈ (collectLoop q user n year store).store,
        e.2.User.Login ≠ "" ∧
          (e.1 ∈ store.map Prod.fst ∨
            ∃ y ∈ (collectLoop q user n year store).queried,
              e.1 = user ++ "-" ++ toString y) := by
  intro n
  induction n with
  | zero =>
    intro year store hstore e he
    exact ⟨hstore e he, Or.inl (List.mem_map_of_mem Prod.fst he)⟩
  | succ n ih =>
    intro year store hstore e he
    cases hq : q year with
    | err msg =>
      simp only [collectLoop, hq] at he
      exact ⟨hstore e he, Or.inl (List.mem_map_of_mem Prod.fst he)⟩
    | ok res =>
      by_cases hlogin : res.User.Login ≠ ""
      · have hstore1 : ∀ e2 ∈ storeInsert store (user ++ "-" ++ toString year) res,
            e2.2.User.Login ≠ "" := by
          intro e2 he2
          rcases mem_storeInsert he2 with h | h
          · rw [h]; exact hlogin
          · exact hstore e2 h
        have hkeys1 : ∀ e2 ∈ storeInsert store (user ++ "-" ++ toString year) res,
            e2.1 ∈ store.map Prod.fst ∨ e2.1 = user ++ "-" ++ toString year :=
          fun e2 he2 => keys_storeInsert he2
        cases hflag : res.User.ContributionsCollection.HasActivityInThePast with
        | false =>
          simp only [collectLoop, hq, hflag, if_pos hlogin, if_false,
            Bool.false_eq_true, List.mem_singleton] at he ⊢
          refine ⟨hstore1 e he, ?_⟩
          rcases hkeys1 e he with h | h
          · exact Or.inl h
          · exact Or.inr ⟨year, rfl, h⟩
        | true =>
          simp only [collectLoop, hq, hflag, if_pos hlogin, if_true, List.mem_cons] at he ⊢
          rcases ih (year - 1) _ hstore1 e he with ⟨hl, hk⟩
          refine ⟨hl, ?_⟩
          rcases hk with h | ⟨y, hy, hkey⟩
          · rcases List.mem_map.1 h with ⟨e2, he2, heq⟩
            rcases keys_storeInsert he2 with h2 | h2
            · exact Or.inl (heq ▸ h2)
            · exact Or.inr ⟨year, Or.inl rfl, heq ▸ h2⟩
          · exact Or.inr ⟨y, Or.inr hy, hkey⟩
      · cases hflag : res.User.ContributionsCollection.HasActivityInThePast with
        | false =>
          simp only [collectLoop, hq, hflag, if_neg hlogin, if_false,
            Bool.false_eq_true] at he ⊢
          exact ⟨hstore e he, Or.inl (List.mem_map_of_mem Prod.fst he)⟩
        | true =>
          simp only [collectLoop, hq, hflag, if_neg hlogin, if_true, List.mem_cons] at he ⊢
          rcases ih (year - 1) store hstore e he with ⟨hl, hk⟩
          refine ⟨hl, ?_⟩
          rcases hk with h | ⟨y, hy, hkey⟩
          · exact Or.inl h
          · exact Or.inr ⟨y, Or.inr hy, hkey⟩

/-! ## Helper lemmas about `Aggregate` -/

theorem any_key_iff (m : List (String × Int)) (n : String) :
    m.any (fun kv => kv.1 == n) = true ↔ n ∈ m.map Prod.fst := by
  simp only [List.any_eq_true, List.mem_map, beq_iff_eq]

theorem keys_bumpRepo (m : List (String × Int)) (n : String) :
    (bumpRepo m n).map Prod.fst = insKey (m.map Prod.fst) n := by
  unfold bumpRepo insKey
  by_cases h : n ∈ m.map Prod.fst
  · rw [if_pos ((any_key_iff m n).2 h), if_pos h, List.map_map]
    apply List.map_congr_left
    intro kv _
    simp only [Function.comp_apply]
    split <;> rfl
  · rw [if_neg (fun hc => h ((any_key_iff m n).1 hc)), if_neg h, List.map_append]
    rfl

theorem keys_foldl_bumpRepo (names : List String) :
    ∀ m : List (String × Int),
      ((names.foldl bumpRepo m).map Prod.fst) = names.foldl insKey (m.map Prod.fst) := by
  induction names with
  | nil => intro m; rfl
  | cons n ns ih =>
    intro m
    simp only [List.foldl_cons]
    rw [ih, keys_bumpRepo]

theorem insKey_nodup {ks : List String} (n : String) (h : ks.Nodup) : (insKey ks n).Nodup := by
  unfold insKey
  split
  · exact h
  · rename_i hn
    refine h.append (List.nodup_singleton n) ?_
    intro a ha hb
    simp only [List.mem_singleton] at hb
    subst hb
    exact hn ha

theorem foldl_insKey_nodup (names : List String) :
    ∀ ks : List String, ks.Nodup → (names.foldl insKey ks).Nodup := by
  induction names with
  | nil => intro ks h; exact h
  | cons n ns ih =>
    intro ks h
    simp only [List.foldl_cons]
    exact ih _ (insKey_nodup n h)

theorem toFinset_insKey (ks : List String) (n : String) :
    (insKey ks n).toFinset = insert n ks.toFinset := by
  unfold insKey
  split
  · rename_i hn
    exact (Finset.insert_eq_self.2 (List.mem_toFinset.2 hn)).symm
  · ext a
    simp [List.toFinset_append, or_comm]

theorem toFinset_foldl_insKey (names : List String) :
    ∀ ks : List String, (names.foldl insKey ks).toFinset = ks.toFinset ∪ names.toFinset := by
  induction names with
  | nil => intro ks; simp
  | cons n ns ih =>
    intro ks
    simp only [List.foldl_cons]
    rw [ih, toFinset_insKey]
    ext a
    simp

theorem length_foldl_bumpRepo_nil (names : List String) :
    (names.foldl bumpRepo []).length = names.toFinset.card := by
  have h1 : (names.foldl bumpRepo []).length =
      ((names.foldl bumpRepo []).map Prod.fst).length := (List.length_map _ _).symm
  rw [h1, keys_foldl_bumpRepo]
  have hn : (names.foldl insKey (([] : List (String × Int)).map Prod.fst)).Nodup :=
    foldl_insKey_nodup names _ (by simp)
  rw [← List.toFinset_card_of_nodup hn, toFinset_foldl_insKey]
  simp

theorem foldl_aggregateStep (s : Store) :
    ∀ (agg : AggregatedResults) (u : List (String × Int)),
      s.foldl aggregateStep (agg, u) =
        ({ agg with
            TotalCommitContributions :=
              agg.TotalCommitContributions + (s.map (fun kv => commitsOf kv.2)).sum
            TotalOtherContributions :=
              agg.TotalOtherContributions + (s.map (fun kv => othersOf kv.2)).sum },
          (storeRepoNames s).foldl bumpRepo u) := by
  induction s with
  | nil => intro agg u; simp [storeRepoNames]
  | cons kv s ih =>
    intro agg u
    rw [List.foldl_cons, ih]
    unfold aggregateStep storeRepoNames commitsOf othersOf
    simp only [List.map_cons, List.sum_cons, List.flatMap_cons, List.foldl_append]
    refine Prod.ext ?_ rfl
    simp only
    congr 1 <;> ring

theorem Aggregate_eq (r : Reporter) (s : Store) (now : Int) :
    r.Aggregate s now =
      { Timestamp := now
        TotalCommitContributions := (s.map (fun kv => commitsOf kv.2)).sum
        TotalRepositories := (storeRepoNames s).toFinset.card
        TotalOtherContributions := (s.map (fun kv => othersOf kv.2)).sum } := by
  simp only [Reporter.Aggregate]
  rw [foldl_aggregateStep]
  simp [length_foldl_bumpRepo_nil]

theorem snapshotRepoNames_setURLs (f : String → String) (res : QueryResult) :
    snapshotRepoNames (setSnapshotURLs f res) = snapshotRepoNames res := by
  have h : ∀ l : List RepoContribution,
      l.map ((fun rc => rc.Repository.Name) ∘ setRepoURL f) =
        l.map (fun rc => rc.Repository.Name) :=
    fun l => List.map_congr_left (fun rc _ => rfl)
  simp only [snapshotRepoNames, setSnapshotURLs, List.map_map, h]

theorem storeRepoNames_setURLs (f : String → String) (s : Store) :
    storeRepoNames (setStoreURLs f s) = storeRepoNames s := by
  induction s with
  | nil => rfl
  | cons kv t ih =>
    simp only [storeRepoNames, setStoreURLs, List.map_cons, List.flatMap_cons] at ih ⊢
    rw [snapshotRepoNames_setURLs, ih]

/-! ## Claim theorems -/

/-- C7: `NewReporter` called with an empty user identifier fails fast with the
invalid-user error and creates no partial state: it returns the error message
together with the zero-valued `Reporter`, regardless of the client and the year
arguments. -/
theorem C7_newReporter_empty_user (client : Option GHClient) (f l ty : Int) :
    NewReporter client "" f l ty =
      (Reporter.zero, some "user  cannot be blank in constructing a query") := by
  simp [NewReporter]

/-- C3: for every non-empty user and requested years, the constructed Reporter's
effective range satisfies `2000 ≤ FirstYear ≤ LastYear ≤ thisYear` (with
`thisYear` the current UTC year, which is at least 2000); a first year below
2000 or above the current year is clamped to 2000 (otherwise kept); a last year
above the current year is clamped to the current year; a last year that is zero
or earlier than the (possibly clamped) first year is reset to the current
year. -/
theorem C3_newReporter_range (client : Option GHClient) (user : String) (f l ty : Int)
    (hu : user ≠ "") (hty : 2000 ≤ ty) :
    (NewReporter client user f l ty).2 = none ∧
    2000 ≤ (NewReporter client user f l ty).1.FirstYear ∧
    (NewReporter client user f l ty).1.FirstYear ≤ (NewReporter client user f l ty).1.LastYear ∧
    (NewReporter client user f l ty).1.LastYear ≤ ty ∧
    ((f < 2000 ∨ ty < f) → (NewReporter client user f l ty).1.FirstYear = 2000) ∧
    (2000 ≤ f → f ≤ ty → (NewReporter client user f l ty).1.FirstYear = f) ∧
    (ty < l → (NewReporter client user f l ty).1.LastYear = ty) ∧
    ((l = 0 ∨ l < (NewReporter client user f l ty).1.FirstYear) →
      (NewReporter client user f l ty).1.LastYear = ty) := by
  rw [newReporter_err_eq client user f l ty hu, newReporter_fst_eq client user f l ty hu,
    newReporter_lst_eq client user f l ty hu]
  unfold DefaultFirstContributionYear
  refine ⟨rfl, ?_⟩
  split_ifs <;> omega

/-- C3 witness: requested range [1990, 3000] with current year 2025 and user
`alice` normalizes to an effective range inside `[2000, 2025]`. -/
theorem C3_newReporter_range_witness :
    ("alice" ≠ "" ∧ (2000 : Int) ≤ 2025) ∧
    ((NewReporter none "alice" 1990 3000 2025).2 = none ∧
    2000 ≤ (NewReporter none "alice" 1990 3000 2025).1.FirstYear ∧
    (NewReporter none "alice" 1990 3000 2025).1.FirstYear ≤
      (NewReporter none "alice" 1990 3000 2025).1.LastYear ∧
    (NewReporter none "alice" 1990 3000 2025).1.LastYear ≤ 2025 ∧
    (((1990 : Int) < 2000 ∨ (2025 : Int) < 1990) →
      (NewReporter none "alice" 1990 3000 2025).1.FirstYear = 2000) ∧
    ((2000 : Int) ≤ 1990 → (1990 : Int) ≤ 2025 →
      (NewReporter none "alice" 1990 3000 2025).1.FirstYear = 1990) ∧
    ((2025 : Int) < 3000 → (NewReporter none "alice" 1990 3000 2025).1.LastYear = 2025) ∧
    (((3000 : Int) = 0 ∨ (3000 : Int) < (NewReporter none "alice" 1990 3000 2025).1.FirstYear) →
      (NewReporter none "alice" 1990 3000 2025).1.LastYear = 2025)) :=
  ⟨⟨by decide, by decide⟩,
    C3_newReporter_range none "alice" 1990 3000 2025 (by decide) (by decide)⟩

/-- C8: year normalization is idempotent: an already-normalized pair
`2000 ≤ f ≤ l ≤ thisYear` is kept exactly as requested. -/
theorem C8_newReporter_idempotent (client : Option GHClient) (user : String) (f l ty : Int)
    (hu : user ≠ "") (h1 : 2000 ≤ f) (h2 : f ≤ l) (h3 : l ≤ ty) :
    (NewReporter client user f l ty).1.FirstYear = f ∧
    (NewReporter client user f l ty).1.LastYear = l := by
  rw [newReporter_fst_eq client user f l ty hu, newReporter_lst_eq client user f l ty hu]
  unfold DefaultFirstContributionYear
  split_ifs <;> omega

/-- C8 witness: the already-normalized range [2005, 2010] under current year
2025 is returned unchanged. -/
theorem C8_newReporter_idempotent_witness :
    ("alice" ≠ "" ∧ (2000 : Int) ≤ 2005 ∧ (2005 : Int) ≤ 2010 ∧ (2010 : Int) ≤ 2025) ∧
    ((NewReporter none "alice" 2005 2010 2025).1.FirstYear = 2005 ∧
     (NewReporter none "alice" 2005 2010 2025).1.LastYear = 2010) :=
  ⟨⟨by decide, by decide, by decide, by decide⟩,
    C8_newReporter_idempotent none "alice" 2005 2010 2025
      (by decide) (by decide) (by decide) (by decide)⟩

/-- C4: `Aggregate` returns the sum of commit counts, the sum of issue +
pull-request + review counts, and the number of distinct repository names
across all four per-category lists of all snapshots; on the two-snapshot
end-to-end store (user A: commits=10, issues=2, PRs=1, reviews=0, repos x,y;
user B: commits=5, issues=0, PRs=3, reviews=2, repos y,z) it returns
totals 15, 8 and 3. -/
theorem C4_aggregate_totals :
    (∀ (r : Reporter) (s : Store) (now : Int),
      (r.Aggregate s now).TotalCommitContributions = (s.map (fun kv => commitsOf kv.2)).sum ∧
      (r.Aggregate s now).TotalOtherContributions = (s.map (fun kv => othersOf kv.2)).sum ∧
      (r.Aggregate s now).TotalRepositories = (storeRepoNames s).toFinset.card) ∧
    ((Reporter.zero.Aggregate exampleStore 0).TotalCommitContributions = 15 ∧
     (Reporter.zero.Aggregate exampleStore 0).TotalOtherContributions = 8 ∧
     (Reporter.zero.Aggregate exampleStore 0).TotalRepositories = 3) := by
  refine ⟨fun r s now => ?_, by decide⟩
  rw [Aggregate_eq]
  exact ⟨rfl, rfl, rfl⟩

/-- C5: repository uniqueness in aggregation is computed by name only:
rewriting every repository URL of the store leaves `totalRepositories`
unchanged, and the two-snapshot store whose snapshots list a repository named
`repoA` once as a commit contribution and once as an issue contribution (with
different URLs) yields `totalRepositories = 1`, not 2. -/
theorem C5_repo_dedup_by_name :
    (∀ (f : String → String) (r : Reporter) (s : Store) (now : Int),
      (r.Aggregate (setStoreURLs f s) now).TotalRepositories =
        (r.Aggregate s now).TotalRepositories) ∧
    (Reporter.zero.Aggregate storeRepoA 0).TotalRepositories = 1 := by
  refine ⟨fun f r s now => ?_, by decide⟩
  rw [Aggregate_eq, Aggregate_eq, storeRepoNames_setURLs]

/-- C9: aggregation is order-independent and deterministic up to the timestamp:
for permuted stores (and any receivers and clock readings) the three count
fields agree, and two runs on the same store differ at most in `Timestamp`. -/
theorem C9_aggregate_order_independent (s1 s2 : Store) (hp : s1.Perm s2)
    (r1 r2 : Reporter) (now1 now2 : Int) :
    (r1.Aggregate s1 now1).TotalCommitContributions =
      (r2.Aggregate s2 now2).TotalCommitContributions ∧
    (r1.Aggregate s1 now1).TotalOtherContributions =
      (r2.Aggregate s2 now2).TotalOtherContributions ∧
    (r1.Aggregate s1 now1).TotalRepositories =
      (r2.Aggregate s2 now2).TotalRepositories ∧
    r1.Aggregate s1 now1 = { r2.Aggregate s2 now2 with Timestamp := now1 } := by
  have hc : (s1.map (fun kv => commitsOf kv.2)).sum = (s2.map (fun kv => commitsOf kv.2)).sum :=
    (hp.map (fun kv => commitsOf kv.2)).sum_eq
  have ho : (s1.map (fun kv => othersOf kv.2)).sum = (s2.map (fun kv => othersOf kv.2)).sum :=
    (hp.map (fun kv => othersOf kv.2)).sum_eq
  have hf : (storeRepoNames s1).toFinset = (storeRepoNames s2).toFinset := by
    ext a
    simp only [List.mem_toFinset, storeRepoNames, List.mem_flatMap]
    exact ⟨fun ⟨kv, hm, ha⟩ => ⟨kv, hp.mem_iff.1 hm, ha⟩,
      fun ⟨kv, hm, ha⟩ => ⟨kv, hp.mem_iff.2 hm, ha⟩⟩
  rw [Aggregate_eq, Aggregate_eq, hc, ho, hf]
  exact ⟨rfl, rfl, rfl, rfl⟩

/-- C9 witness: swapping the two snapshots of the end-to-end store changes
none of the three count fields, and changing the clock reading changes only
the timestamp. -/
theorem C9_aggregate_order_independent_witness :
    (exampleStore.Perm [("B-2024", snapB), ("A-2024", snapA)]) ∧
    ((Reporter.zero.Aggregate exampleStore 5).TotalCommitContributions =
      (Reporter.zero.Aggregate [("B-2024", snapB), ("A-2024", snapA)] 7).TotalCommitContributions ∧
    (Reporter.zero.Aggregate exampleStore 5).TotalOtherContributions =
      (Reporter.zero.Aggregate [("B-2024", snapB), ("A-2024", snapA)] 7).TotalOtherContributions ∧
    (Reporter.zero.Aggregate exampleStore 5).TotalRepositories =
      (Reporter.zero.Aggregate [("B-2024", snapB), ("A-2024", snapA)] 7).TotalRepositories ∧
    Reporter.zero.Aggregate exampleStore 5 =
      { Reporter.zero.Aggregate [("B-2024", snapB), ("A-2024", snapA)] 7 with Timestamp := 5 }) :=
  ⟨List.Perm.swap _ _ _,
    C9_aggregate_order_independent exampleStore [("B-2024", snapB), ("A-2024", snapA)]
      (List.Perm.swap _ _ _) Reporter.zero Reporter.zero 5 7⟩

/-- C10: the count fields produced by `Aggregate` do not depend on the
`Reporter` receiver at all, only on the store passed in (the receiver is unused
in the source); in fact the whole result agrees for any two receivers, which is
why calling `Report` on only the last-constructed reporter after the credential
loop reports the combined results of all credentials. -/
theorem C10_aggregate_receiver_independent (r1 r2 : Reporter) (s : Store) (now : Int) :
    (r1.Aggregate s now).TotalCommitContributions =
      (r2.Aggregate s now).TotalCommitContributions ∧
    (r1.Aggregate s now).TotalOtherContributions =
      (r2.Aggregate s now).TotalOtherContributions ∧
    (r1.Aggregate s now).TotalRepositories = (r2.Aggregate s now).TotalRepositories ∧
    r1.Aggregate s now = r2.Aggregate s now :=
  ⟨rfl, rfl, rfl, rfl⟩

/-- C1: what the code actually does on a remote query error during `Collect`:
the embedding of `log.Fatal(err)` is the terminal `fatal` outcome, i.e. the
process exits; the `return err` after `log.Fatal` is dead code, so no error
value ever reaches main's per-credential `log.Print`-and-continue handler.
The remaining (earlier) years are indeed not queried and nothing is retried
(only year 2024 is queried below), but the failure is fatal to the whole run,
contradicting the claim that the per-credential caller logs it and
continues. -/
theorem C1_collect_query_error_exits_process :
    (Reporter.Collect
      { Client := some ⟨fun _ => QueryOutcome.err "boom"⟩, User := "u",
        LastYear := 2024, FirstYear := 2000 } []).fatal = some "boom" ∧
    (Reporter.Collect
      { Client := some ⟨fun _ => QueryOutcome.err "boom"⟩, User := "u",
        LastYear := 2024, FirstYear := 2000 } []).queried = [2024] :=
  ⟨rfl, rfl⟩

/-- C2: `Collect` queries years strictly in descending order starting at
`LastYear` (the trace is `LastYear, LastYear - 1, ...`), never queries a year
outside `[FirstYear, LastYear]` (for every client, also a failing one), and —
when every year in range resolves — a year is queried exactly when every later
year in range reported `hasActivityInThePast = true`, so iteration stops
immediately after the first queried year whose response has the flag false. -/
theorem C2_collect_descending_stop (q : Int → QueryOutcome) (user : String)
    (first last : Int) (store : Store) (hfl : first ≤ last)
    (hok : ∀ z, first ≤ z → z ≤ last → ∃ res, q z = QueryOutcome.ok res) :
    (∀ (q2 : Int → QueryOutcome) (store2 : Store) (y : Int),
      y ∈ (Reporter.Collect
            { Client := some ⟨q2⟩, User := user, LastYear := last, FirstYear := first }
            store2).queried → first ≤ y ∧ y ≤ last) ∧
    ((Reporter.Collect
        { Client := some ⟨q⟩, User := user, LastYear := last, FirstYear := first }
        store).queried =
      (List.range (Reporter.Collect
        { Client := some ⟨q⟩, User := user, LastYear := last, FirstYear := first }
        store).queried.length).map (fun i : Nat => last - (i : Int))) ∧
    (∀ y : Int, first ≤ y → y ≤ last →
      (y ∈ (Reporter.Collect
            { Client := some ⟨q⟩, User := user, LastYear := last, FirstYear := first }
            store).queried ↔
        ∀ z, y < z → z ≤ last → hasPastTrue q z)) := by
  have hn : (((last - first + 1).toNat : Nat) : Int) = last - first + 1 :=
    Int.toNat_of_nonneg (by omega)
  refine ⟨?_, ?_, ?_⟩
  · intro q2 store2 y hy
    simp only [Reporter.Collect] at hy
    have hb := collectLoop_queried_bounds q2 user ((last - first + 1).toNat) last store2 y hy
    omega
  · simp only [Reporter.Collect]
    exact collectLoop_queried_shape q user _ last store
  · intro y hy1 hy2
    simp only [Reporter.Collect]
    have hok2 : ∀ z, last - (((last - first + 1).toNat : Nat) : Int) < z → z ≤ last →
        ∃ res, q z = QueryOutcome.ok res := by
      intro z h1 h2
      exact hok z (by omega) h2
    rw [collectLoop_mem_queried q user ((last - first + 1).toNat) last store hok2 y]
    constructor
    · rintro ⟨_, _, hcond⟩
      exact hcond
    · intro hcond
      exact ⟨by omega, by omega, hcond⟩

/-- C2 witness: with synthetic responses where exactly year 2022 has
`hasActivityInThePast = false`, a collection over `[2000, 2024]` queries
exactly the years 2024, 2023, 2022 and no year at most 2021. -/
theorem C2_collect_descending_stop_witness :
    ((2000 : Int) ≤ 2024 ∧
      (∀ z : Int, 2000 ≤ z → z ≤ 2024 → ∃ res, query2022 z = QueryOutcome.ok res)) ∧
    (Reporter.Collect
      { Client := some ⟨query2022⟩, User := "u", LastYear := 2024, FirstYear := 2000 }
      []).queried = [2024, 2023, 2022] ∧
    (∀ y : Int, 2000 ≤ y → y ≤ 2024 →
      (y ∈ (Reporter.Collect
            { Client := some ⟨query2022⟩, User := "u", LastYear := 2024, FirstYear := 2000 }
            []).queried ↔
        ∀ z, y < z → z ≤ 2024 → hasPastTrue query2022 z)) :=
  ⟨⟨by decide, fun z _ _ => ⟨_, rfl⟩⟩, by decide,
    (C2_collect_descending_stop query2022 "u" 2000 2024 [] (by decide)
      (fun z _ _ => ⟨_, rfl⟩)).2.2⟩

/-- C6: a snapshot whose login is empty is never inserted: starting from a
store all of whose entries have a non-empty login, every entry of the store
after `Collect` has a non-empty login, and every entry that was not already
present is keyed `<user>-<year>` for one of the queried years. -/
theorem C6_no_empty_login_inserted (r : Reporter) (store : Store)
    (hstore : ∀ e ∈ store, e.2.User.Login ≠ "") :
    ∀ e ∈ (r.Collect store).store,
      e.2.User.Login ≠ "" ∧
        (e.1 ∈ store.map Prod.fst ∨
          ∃ y ∈ (r.Collect store).queried, e.1 = r.User ++ "-" ++ toString y) := by
  obtain ⟨cl, user, ly, fy⟩ := r
  cases cl with
  | none =>
    intro e he
    exact ⟨hstore e he, Or.inl (List.mem_map_of_mem Prod.fst he)⟩
  | some c =>
    exact collectLoop_store_inv c.Query user ((ly - fy + 1).toNat) ly store hstore

/-- C6 witness: collecting with the synthetic responses into an empty store
yields a store whose every entry has a non-empty login and a `<user>-<year>`
key for a queried year. -/
theorem C6_no_empty_login_inserted_witness :
    (∀ e ∈ ([] : Store), e.2.User.Login ≠ "") ∧
    (∀ e ∈ (Reporter.Collect
        { Client := some ⟨query2022⟩, User := "u", LastYear := 2024, FirstYear := 2000 }
        []).store,
      e.2.User.Login ≠ "" ∧
        (e.1 ∈ ([] : Store).map Prod.fst ∨
          ∃ y ∈ (Reporter.Collect
              { Client := some ⟨query2022⟩, User := "u", LastYear := 2024, FirstYear := 2000 }
              []).queried, e.1 = "u" ++ "-" ++ toString y)) :=
  ⟨fun e he => absurd he (List.not_mem_nil e),
    C6_no_empty_login_inserted
      { Client := some ⟨query2022⟩, User := "u", LastYear := 2024, FirstYear := 2000 } []
      (fun e he => absurd he (List.not_mem_nil e))⟩

end Reporting
